import Mathlib

/-!
Verification of the langchain-velatir governance middleware.

Shallow embedding of the repository's Python sources:
  - `types.py` / `tests/mock_velatir.py`: verdict states and classification predicates;
  - `client.py`: `wait_for_approval` / `wait_for_approval_sync` (max-attempt derivation
    and domain-specific timeout translation);
  - `middleware.py`: `VelatirGuardrailMiddleware.after_agent` and
    `VelatirHITLMiddleware.after_model`, embedded as pure functions over an oracle
    environment supplying the review client's behaviour (verdicts or raised
    exceptions), with explicit `Except`-based exception propagation mirroring the
    Python try/except structure, and an event trace recording which review tasks are
    submitted and which are waited on.

Python floats (timeouts, poll intervals) are modelled as rationals; `int(x)` is
truncation toward zero.
-/

/-- Verdict states, from `types.py` (`ReviewTaskState`).  The mock enum in
`tests/mock_velatir.py` spells `Rejected` as `DENIED`; both name the same state. -/
inductive ReviewTaskState where
  | pending
  | processing
  | approved
  | requiresIntervention
  | rejected
  | changeRequested
deriving DecidableEq, Repr

/-- The review-service response value, from `tests/mock_velatir.py`
(`VelatirResponse`): an opaque task id, a state, and an optional explanation. -/
structure VelatirResponse where
  review_task_id : String
  state : ReviewTaskState
  requested_change : Option String
deriving DecidableEq, Repr

/-- `VelatirResponse.is_approved` (mock_velatir.py line 31): `state == APPROVED`. -/
def VelatirResponse.is_approved (r : VelatirResponse) : Bool :=
  match r.state with
  | .approved => true
  | _ => false

/-- `VelatirResponse.is_denied` (mock_velatir.py line 35): `state == DENIED`. -/
def VelatirResponse.is_denied (r : VelatirResponse) : Bool :=
  match r.state with
  | .rejected => true
  | _ => false

/-- `VelatirResponse.is_pending` (mock_velatir.py line 39): `state == PENDING`. -/
def VelatirResponse.is_pending (r : VelatirResponse) : Bool :=
  match r.state with
  | .pending => true
  | _ => false

/-- `VelatirResponse.is_change_requested` (mock_velatir.py line 43):
`state == CHANGE_REQUESTED`. -/
def VelatirResponse.is_change_requested (r : VelatirResponse) : Bool :=
  match r.state with
  | .changeRequested => true
  | _ => false

/-- `VelatirResponse.requires_intervention` (mock_velatir.py line 47):
`state == REQUIRES_INTERVENTION`. -/
def VelatirResponse.requires_intervention (r : VelatirResponse) : Bool :=
  match r.state with
  | .requiresIntervention => true
  | _ => false

/-- `VelatirResponse.is_rejected` (mock_velatir.py line 51): the named union
`state in (DENIED, CHANGE_REQUESTED)` — the spec's `isBlocking`. -/
def VelatirResponse.is_rejected (r : VelatirResponse) : Bool :=
  match r.state with
  | .rejected => true
  | .changeRequested => true
  | _ => false

/-- Exceptions that flow through the middleware, from `exceptions.py` and the SDK:
`timeoutError` models `VelatirTimeoutError` (ours and, at the env boundary, the
SDK's already-translated form), `approvalDeniedError` models
`VelatirApprovalDeniedError`, and `otherError` any other Python exception.
The `message` field is the exception's `str()`. -/
inductive PyError where
  | timeoutError (message : String) (review_task_id : Option String)
      (timeout_seconds : Option ℚ)
  | approvalDeniedError (message : String) (review_task_id : Option String)
      (requested_change : Option String)
  | otherError (message : String)
deriving DecidableEq, Repr

/-- `str(e)` on a modelled Python exception: its message. -/
def PyError.toMessage : PyError → String
  | .timeoutError m _ _ => m
  | .approvalDeniedError m _ _ => m
  | .otherError m => m

/-- Python `int(q)` on a rational: truncation toward zero. -/
def pyInt (q : ℚ) : ℤ :=
  if q < 0 then ⌈q⌉ else ⌊q⌋

/-- Rendering of a Python float in an f-string, modelled on rationals. -/
def floatStr (q : ℚ) : String :=
  toString q

/-- The `max_attempts` value computed by `VelatirClient.wait_for_approval`
(client.py lines 127-131): `None` when `timeout` is `None`, else
`int(timeout / polling_interval) + 1`. -/
def wait_for_approval_max_attempts (timeout : Option ℚ) (polling_interval : ℚ) :
    Option ℤ :=
  match timeout with
  | none => none
  | some t => some (pyInt (t / polling_interval) + 1)

/-- The `max_attempts` value computed by `VelatirClient.wait_for_approval_sync`
(client.py lines 180-183): textually the same derivation as the async version. -/
def wait_for_approval_sync_max_attempts (timeout : Option ℚ)
    (polling_interval : ℚ) : Option ℤ :=
  match timeout with
  | none => none
  | some t => some (pyInt (t / polling_interval) + 1)

/-- A verdict state is terminal (spec section 4.2): `Approved`, `Rejected`,
`ChangeRequested`. -/
def isTerminal (s : ReviewTaskState) : Bool :=
  match s with
  | .approved => true
  | .rejected => true
  | .changeRequested => true
  | _ => false

/-- Modelled from the spec: the underlying SDK poll loop behind
`wait_for_approval` / `wait_for_approval_sync` (the real `velatir` SDK is an
external dependency and `tests/mock_velatir.py` stubs it out, so the loop body is
not in the sources).  Spec section 4.1: repeatedly call `status` until a terminal
state is observed, with the attempt count capped by `max_attempts`; when the cap
is exhausted without a terminal state, fail with the SDK timeout error.
`seq i` is the state returned by the (i+1)-th status call; on success the result
carries the number of status calls made. -/
def pollUntilTerminal (seq : ℕ → ReviewTaskState) :
    ℕ → ℕ → Except Unit (ℕ × ReviewTaskState)
  | 0, _ => .error ()
  | fuel + 1, i =>
    let s := seq i
    if isTerminal s then .ok (i + 1, s) else pollUntilTerminal seq fuel (i + 1)

/-- SDK-side outcome of the underlying wait call, as seen by
`VelatirClient.wait_for_approval_sync`: a response, the SDK's
`velatir.VelatirTimeoutError`, or any other exception. -/
inductive SdkWaitResult where
  | ok (r : VelatirResponse)
  | sdkTimeout
  | err (message : String)
deriving DecidableEq, Repr

/-- The error translation in `VelatirClient.wait_for_approval_sync`
(client.py lines 185-198): a response is returned as-is; the SDK timeout is
re-raised as the domain `VelatirTimeoutError` carrying the review task id and the
elapsed time; any other exception propagates unchanged. -/
def wait_for_approval_sync_result (review_task_id : String) (elapsed : ℚ) :
    SdkWaitResult → Except PyError VelatirResponse
  | .ok r => .ok r
  | .sdkTimeout =>
    .error (.timeoutError
      ("Approval timeout after " ++ floatStr elapsed ++
        "s waiting for review task " ++ review_task_id)
      (some review_task_id) (some elapsed))
  | .err m => .error (.otherError m)

/-- A value stored in a message's `additional_kwargs` dictionary, covering the
shapes the middleware writes: booleans, strings, optional strings, and the
`velatir_warning` sub-dictionary `(review_task_id, reason)`. -/
inductive KwVal where
  | bool (b : Bool)
  | str (s : String)
  | optStr (s : Option String)
  | warn (review_task_id : String) (reason : Option String)
deriving DecidableEq, Repr

/-- A tool call attached to an assistant message: a Python dict read with
`.get`, so every field may be absent. -/
structure ToolCall where
  name : Option String
  args : List (String × String)
  id : Option String
deriving DecidableEq, Repr

/-- A LangChain `AIMessage` as the middleware observes it: content,
`additional_kwargs` (an insertion-ordered string-keyed dict), and `tool_calls`. -/
structure AIMessage where
  content : String
  additional_kwargs : List (String × KwVal)
  tool_calls : List ToolCall
deriving DecidableEq, Repr

/-- A conversation message: an `AIMessage`, or any other message kind (only its
`str()` rendering matters to the middleware, which ignores non-AI messages). -/
inductive Message where
  | ai (m : AIMessage)
  | other (repr : String)
deriving DecidableEq, Repr

/-- `GuardrailMode` from `types.py`. -/
inductive GuardrailMode where
  | blocking
  | logging
deriving DecidableEq, Repr

/-- `VelatirGuardrailMiddleware` configuration observed by `after_agent`
(middleware.py lines 83-118). -/
structure GuardrailConfig where
  mode : GuardrailMode
  approval_timeout : ℚ
  polling_interval : ℚ
  blocked_message : String
deriving DecidableEq, Repr

/-- Oracle for the review client's behaviour during one `after_agent`
invocation: the outcome of `create_review_task_sync` and, if reached, of
`wait_for_approval_sync` (each a response or a raised exception). -/
structure GuardrailEnv where
  submit : Except PyError VelatirResponse
  wait : Except PyError VelatirResponse
deriving Repr

/-- Python dict assignment `d[k] = v` on an insertion-ordered assoc list:
overwrite in place when the key exists, append otherwise. -/
def dictSet (kvs : List (String × KwVal)) (k : String) (v : KwVal) :
    List (String × KwVal) :=
  if kvs.any (fun p => p.1 == k) then
    kvs.map (fun p => if p.1 == k then (k, v) else p)
  else kvs ++ [(k, v)]

/-- The substitute message built by `after_agent` on a blocking verdict in
blocking mode (middleware.py lines 179-191 and 217-229). -/
def blockedSubst (cfg : GuardrailConfig) (r : VelatirResponse) : Message :=
  .ai ⟨cfg.blocked_message,
    [("velatir_blocked", KwVal.bool true),
     ("review_task_id", KwVal.str r.review_task_id),
     ("reason", KwVal.optStr r.requested_change)], []⟩

/-- The substitute message built by `after_agent` on an approval timeout in
blocking mode (middleware.py lines 235-247); carries the original submission's
review task id. -/
def timeoutSubst (r : VelatirResponse) : Message :=
  .ai ⟨"Response review timed out.",
    [("velatir_blocked", KwVal.bool true),
     ("review_task_id", KwVal.str r.review_task_id),
     ("reason", KwVal.str "Timeout waiting for approval")], []⟩

/-- The substitute message built by `after_agent` on an unexpected service
error in blocking mode (middleware.py lines 253-264). -/
def errorSubst (e : PyError) : Message :=
  .ai ⟨"Response blocked due to review system error.",
    [("velatir_blocked", KwVal.bool true),
     ("error", KwVal.str e.toMessage)], []⟩

/-- The outer `try:` block of `VelatirGuardrailMiddleware.after_agent`
(middleware.py lines 152-248), for a message list whose last message is the
`AIMessage` `lastAI`: submit; return on immediate approval; substitute or
annotate on an immediate blocking verdict; otherwise wait, handling approval,
blocking final verdicts, and (via the inner `except VelatirTimeoutError`) the
approval timeout.  `.error e` means the exception `e` escapes this block into
the outer `except Exception` handler. -/
def after_agent_try (cfg : GuardrailConfig) (env : GuardrailEnv)
    (messages : List Message) (lastAI : AIMessage) :
    Except PyError (Option (List Message) × List Message) :=
  match env.submit with
  | .error e => .error e
  | .ok response =>
    if response.is_approved then .ok (none, messages)
    else if response.is_denied || response.is_change_requested then
      if cfg.mode = GuardrailMode.blocking then
        let newMsgs := messages.dropLast ++ [blockedSubst cfg response]
        .ok (some newMsgs, newMsgs)
      else
        let mutated := messages.dropLast ++
          [Message.ai { lastAI with
            additional_kwargs := dictSet lastAI.additional_kwargs
              "velatir_warning"
              (KwVal.warn response.review_task_id response.requested_change) }]
        .ok (none, mutated)
    else
      match env.wait with
      | .ok finalResponse =>
        if finalResponse.is_approved then .ok (none, messages)
        else if finalResponse.is_denied || finalResponse.is_change_requested
        then
          if cfg.mode = GuardrailMode.blocking then
            let newMsgs := messages.dropLast ++
              [blockedSubst cfg finalResponse]
            .ok (some newMsgs, newMsgs)
          else .ok (none, messages)
        else .ok (none, messages)
      | .error (.timeoutError _ _ _) =>
        if cfg.mode = GuardrailMode.blocking then
          let newMsgs := messages.dropLast ++ [timeoutSubst response]
          .ok (some newMsgs, newMsgs)
        else .ok (none, messages)
      | .error e => .error e

/-- `VelatirGuardrailMiddleware.after_agent` (middleware.py lines 121-265),
embedded over the oracle `env`.  The result is `.error e` when the hook raises
`e` across the boundary, and `.ok (ret, msgs)` when it returns: `ret` is the
returned state update (`some newMessages` for the dict `{"messages": ...}`,
`none` for Python `None`) and `msgs` the message list after the hook, capturing
the in-place `additional_kwargs` mutation of the logging-mode warning path.
The trailing match is the outer `except Exception` handler (lines 250-265). -/
def after_agent (cfg : GuardrailConfig) (env : GuardrailEnv)
    (messages : List Message) :
    Except PyError (Option (List Message) × List Message) :=
  match messages.getLast? with
  | none => .ok (none, messages)
  | some (.other _) => .ok (none, messages)
  | some (.ai lastAI) =>
    match after_agent_try cfg env messages lastAI with
    | .ok r => .ok r
    | .error e =>
      if cfg.mode = GuardrailMode.blocking then
        let newMsgs := messages.dropLast ++ [errorSubst e]
        .ok (some newMsgs, newMsgs)
      else .ok (none, messages)

/-- `VelatirHITLMiddleware` configuration observed by `after_model`
(middleware.py lines 303-332). -/
structure HITLConfig where
  polling_interval : ℚ
  timeout : ℚ
  require_approval_for : Option (List String)
deriving DecidableEq, Repr

/-- Oracle for the review client's behaviour on one gated tool call: the
outcome of its `create_review_task_sync` and of its `wait_for_approval_sync`. -/
structure CallEnv where
  submit : Except PyError VelatirResponse
  wait : Except PyError VelatirResponse
deriving Repr

/-- Observable client-interaction events of the tool-call gate: a review-task
submission for a tool, and a wait (at least one status poll) on its task. -/
inductive GateEvent where
  | submit (toolName : String)
  | wait (toolName : String)
deriving DecidableEq, Repr

/-- `tool_call.get("name", "unknown_tool")` (middleware.py line 372). -/
def pyName (tc : ToolCall) : String :=
  tc.name.getD "unknown_tool"

/-- Python `s or default` on an optional string: `None` and the empty string are
falsy (middleware.py line 414). -/
def pyOrStr (o : Option String) (d : String) : String :=
  match o with
  | none => d
  | some s => if s.isEmpty then d else s

/-- The allow-list filter of `after_model` (middleware.py lines 364-365):
keep a call iff `tc.get("name")` is in `require_approval_for`; with no
configured list, keep everything. -/
def filterCalls (cfg : HITLConfig) (tool_calls : List ToolCall) :
    List ToolCall :=
  match cfg.require_approval_for with
  | none => tool_calls
  | some allow =>
    tool_calls.filter (fun tc =>
      match tc.name with
      | some n => allow.contains n
      | none => false)

/-- One iteration of the `after_model` loop body for a single tool call
(middleware.py lines 371-425): submit; `continue` on immediate approval;
otherwise wait, then `continue` on approval or a non-terminal final state,
raise `VelatirApprovalDeniedError` on a blocking final verdict; the per-call
`try/except VelatirTimeoutError` re-raises a timeout enriched with the tool
name and the configured timeout, and lets every other exception propagate. -/
def gateStep (cfg : HITLConfig) (ce : CallEnv) (tool_name : String) :
    List GateEvent × Except PyError Unit :=
  let inner : List GateEvent × Except PyError Unit :=
    match ce.submit with
    | .error e => ([GateEvent.submit tool_name], .error e)
    | .ok response =>
      if response.is_approved then ([GateEvent.submit tool_name], .ok ())
      else
        match ce.wait with
        | .error e =>
          ([GateEvent.submit tool_name, GateEvent.wait tool_name], .error e)
        | .ok finalResponse =>
          if finalResponse.is_approved then
            ([GateEvent.submit tool_name, GateEvent.wait tool_name], .ok ())
          else if finalResponse.is_denied || finalResponse.is_change_requested
          then
            ([GateEvent.submit tool_name, GateEvent.wait tool_name],
             .error (.approvalDeniedError
               ("Tool execution denied for " ++ tool_name ++ ": " ++
                 pyOrStr finalResponse.requested_change "No reason provided")
               (some finalResponse.review_task_id)
               finalResponse.requested_change))
          else ([GateEvent.submit tool_name, GateEvent.wait tool_name], .ok ())
  (inner.1,
   match inner.2 with
   | .error (.timeoutError _ rtid _) =>
     .error (.timeoutError
       ("Timeout waiting for approval of tool " ++ tool_name ++ " after " ++
         floatStr cfg.timeout ++ "s")
       rtid (some cfg.timeout))
   | r => r)

/-- The `for tool_call in tool_calls` loop of `after_model` (middleware.py
lines 371-425): run each call's step in order; a raised exception aborts the
loop.  `i` indexes the oracle by position in the filtered batch. -/
def gateLoop (cfg : HITLConfig) (env : ℕ → CallEnv) :
    List ToolCall → ℕ → List GateEvent × Except PyError Unit
  | [], _ => ([], .ok ())
  | tc :: rest, i =>
    let step := gateStep cfg (env i) (pyName tc)
    match step.2 with
    | .error e => (step.1, .error e)
    | .ok _ =>
      let r := gateLoop cfg env rest (i + 1)
      (step.1 ++ r.1, r.2)

/-- `VelatirHITLMiddleware.after_model` (middleware.py lines 334-428), embedded
over the per-call oracle `env`: extract the last message's tool calls (no-op on
an empty list, a non-AI last message, or no tool calls), apply the allow-list
filter (no-op when empty), then gate each remaining call in order; on success
the hook returns Python `None` (state unchanged). -/
def after_model (cfg : HITLConfig) (env : ℕ → CallEnv)
    (messages : List Message) :
    List GateEvent × Except PyError (Option (List Message)) :=
  match messages.getLast? with
  | none => ([], .ok none)
  | some (.other _) => ([], .ok none)
  | some (.ai m) =>
    if m.tool_calls.isEmpty then ([], .ok none)
    else
      let tcs := filterCalls cfg m.tool_calls
      if tcs.isEmpty then ([], .ok none)
      else
        let r := gateLoop cfg env tcs 0
        (r.1,
         match r.2 with
         | .ok _ => .ok none
         | .error e => .error e)

/-- The tool names submitted for review, in order, as recorded in a gate
trace. -/
def submits (tr : List GateEvent) : List String :=
  tr.filterMap (fun e =>
    match e with
    | .submit n => some n
    | .wait _ => none)

/-- A call's oracle lets the gate loop proceed to the next call: submission
succeeds and either the immediate verdict is approved, or the wait returns a
final verdict that is not blocking (approved or still non-terminal). -/
def StepOk (ce : CallEnv) : Prop :=
  ∃ r, ce.submit = Except.ok r ∧
    (r.is_approved = true ∨
      ∃ f, ce.wait = Except.ok f ∧
        (f.is_denied || f.is_change_requested) = false)

/-- A call's oracle aborts the gate loop: submission succeeds with a
non-approved immediate verdict and the wait either resolves to a blocking final
verdict or raises a timeout. -/
def Aborts (ce : CallEnv) : Prop :=
  ∃ r, ce.submit = Except.ok r ∧ r.is_approved = false ∧
    ((∃ f, ce.wait = Except.ok f ∧
        (f.is_denied || f.is_change_requested) = true) ∨
      (∃ m rtid secs, ce.wait = Except.error (PyError.timeoutError m rtid secs)))

lemma pollUntilTerminal_ok_le (seq : ℕ → ReviewTaskState) :
    ∀ fuel i n s, pollUntilTerminal seq fuel i = .ok (n, s) → n ≤ i + fuel := by
  intro fuel
  induction fuel with
  | zero => intro i n s h; simp [pollUntilTerminal] at h
  | succ k ih =>
    intro i n s h
    rw [pollUntilTerminal] at h
    by_cases ht : isTerminal (seq i) = true
    · simp [ht] at h
      omega
    · simp [ht] at h
      have := ih (i + 1) n s h
      omega

lemma pollUntilTerminal_exhaust (seq : ℕ → ReviewTaskState) :
    ∀ fuel i, (∀ j, i ≤ j → j < i + fuel → isTerminal (seq j) = false) →
      pollUntilTerminal seq fuel i = .error () := by
  intro fuel
  induction fuel with
  | zero => intro i _; simp [pollUntilTerminal]
  | succ k ih =>
    intro i h
    rw [pollUntilTerminal]
    have hi : isTerminal (seq i) = false := h i (le_refl i) (by omega)
    simp [hi]
    exact ih (i + 1) (fun j hj1 hj2 => h j (by omega) (by omega))

/-- C1: for positive timeout `t` and poll interval `p`, both `wait_for_approval`
and `wait_for_approval_sync` derive the attempt cap `floor(t/p) + 1` and pass it
to the underlying poll loop; the poll loop makes at most that many status calls
and, if no terminal state appears within the cap, fails with a timeout which the
client surfaces as `VelatirTimeoutError`; with `timeout = None` no cap is set. -/
theorem claim_C1 (t p : ℚ) (ht : 0 < t) (hp : 0 < p)
    (seq : ℕ → ReviewTaskState) :
    wait_for_approval_max_attempts (some t) p = some (⌊t / p⌋ + 1) ∧
    wait_for_approval_sync_max_attempts (some t) p = some (⌊t / p⌋ + 1) ∧
    wait_for_approval_max_attempts none p = none ∧
    wait_for_approval_sync_max_attempts none p = none ∧
    (∀ cap n s, pollUntilTerminal seq cap 0 = .ok (n, s) → n ≤ cap) ∧
    (∀ cap, (∀ i, i < cap → isTerminal (seq i) = false) →
      pollUntilTerminal seq cap 0 = .error ()) ∧
    (∀ rtid el, wait_for_approval_sync_result rtid el SdkWaitResult.sdkTimeout =
      .error (.timeoutError
        ("Approval timeout after " ++ floatStr el ++
          "s waiting for review task " ++ rtid)
        (some rtid) (some el))) := by
  have hdiv : 0 ≤ t / p := le_of_lt (div_pos ht hp)
  have hInt : pyInt (t / p) = ⌊t / p⌋ := by
    unfold pyInt
    rw [if_neg (by exact not_lt.mpr hdiv)]
  refine ⟨?_, ?_, rfl, rfl, ?_, ?_, ?_⟩
  · simp [wait_for_approval_max_attempts, hInt]
  · simp [wait_for_approval_sync_max_attempts, hInt]
  · intro cap n s h
    have := pollUntilTerminal_ok_le seq cap 0 n s h
    omega
  · intro cap h
    exact pollUntilTerminal_exhaust seq cap 0 (fun j _ hj2 => h j (by omega))
  · intro rtid el
    rfl

/-- C1 witness: at timeout 10 and poll interval 3 the sync client derives the
attempt cap 4, and a never-terminal status sequence exhausts a cap of 4 with a
timeout. -/
theorem claim_C1_witness :
    wait_for_approval_sync_max_attempts (some 10) 3 = some 4 ∧
    pollUntilTerminal (fun _ => ReviewTaskState.pending) 4 0 = .error () := by
  have h := claim_C1 10 3 (by norm_num) (by norm_num)
    (fun _ => ReviewTaskState.pending)
  constructor
  · rw [h.2.1]
    have hfl : ⌊(10 : ℚ) / 3⌋ = 3 := by
      rw [Int.floor_eq_iff]
      norm_num
    rw [hfl]
    norm_num
  · exact h.2.2.2.2.2.1 4 (fun i _ => rfl)

/-- C8: on `Approved`, the blocking predicate is false and `is_approved` true; on
`Rejected`/`ChangeRequested` the blocking predicate is true; on `Pending`,
`Processing`, `RequiresIntervention` both the blocking predicate and `is_approved`
are false; and the "denied or change requested" union is the single named
predicate `is_rejected`, extensionally `is_denied || is_change_requested`. -/
theorem claim_C8 (r : VelatirResponse) :
    (r.state = ReviewTaskState.approved →
      r.is_rejected = false ∧ r.is_approved = true) ∧
    (r.state = ReviewTaskState.rejected ∨ r.state = ReviewTaskState.changeRequested →
      r.is_rejected = true) ∧
    (r.state = ReviewTaskState.pending ∨ r.state = ReviewTaskState.processing ∨
        r.state = ReviewTaskState.requiresIntervention →
      r.is_rejected = false ∧ r.is_approved = false) ∧
    r.is_rejected = (r.is_denied || r.is_change_requested) := by
  obtain ⟨id, s, c⟩ := r
  cases s <;>
    simp [VelatirResponse.is_rejected, VelatirResponse.is_approved,
      VelatirResponse.is_denied, VelatirResponse.is_change_requested]

/-- C8 witness: the classification at the concrete `Approved` verdict. -/
theorem claim_C8_witness :
    (VelatirResponse.mk "t" ReviewTaskState.approved none).is_rejected = false ∧
    (VelatirResponse.mk "t" ReviewTaskState.approved none).is_approved = true :=
  (claim_C8 (VelatirResponse.mk "t" ReviewTaskState.approved none)).1 rfl

lemma not_approved_of_blocking (r : VelatirResponse)
    (h : (r.is_denied || r.is_change_requested) = true) :
    r.is_approved = false := by
  obtain ⟨id, s, c⟩ := r
  cases s <;>
    simp [VelatirResponse.is_denied, VelatirResponse.is_change_requested,
      VelatirResponse.is_approved] at h ⊢

lemma after_agent_concat (cfg : GuardrailConfig) (env : GuardrailEnv)
    (pre : List Message) (lastAI : AIMessage) :
    after_agent cfg env (pre ++ [Message.ai lastAI]) =
      match after_agent_try cfg env (pre ++ [Message.ai lastAI]) lastAI with
      | .ok r => .ok r
      | .error e =>
        if cfg.mode = GuardrailMode.blocking then
          Except.ok (some (pre ++ [errorSubst e]), pre ++ [errorSubst e])
        else Except.ok (none, pre ++ [Message.ai lastAI]) := by
  unfold after_agent
  rw [List.getLast?_concat, List.dropLast_concat]

/-- C4: for every input state and every review-client behaviour, `after_agent`
never raises across the hook boundary — it always returns a value; and when the
submission itself raises a service error, blocking mode substitutes the
review-system-error message while logging mode returns `None` with the state
untouched. -/
theorem claim_C4 (cfg : GuardrailConfig) (env : GuardrailEnv)
    (messages : List Message) :
    (∃ r, after_agent cfg env messages = Except.ok r) ∧
    (∀ e pre lastAI, messages = pre ++ [Message.ai lastAI] →
      env.submit = Except.error e →
      (cfg.mode = GuardrailMode.blocking →
        after_agent cfg env messages =
          Except.ok (some (pre ++ [errorSubst e]), pre ++ [errorSubst e])) ∧
      (cfg.mode = GuardrailMode.logging →
        after_agent cfg env messages = Except.ok (none, messages))) := by
  constructor
  · induction messages using List.reverseRecOn with
    | nil => exact ⟨(none, []), rfl⟩
    | append_singleton pre last ih =>
      cases last with
      | other s =>
        refine ⟨(none, pre ++ [Message.other s]), ?_⟩
        unfold after_agent
        rw [List.getLast?_concat]
      | ai lastAI =>
        rw [after_agent_concat]
        cases htry : after_agent_try cfg env (pre ++ [Message.ai lastAI]) lastAI
          with
        | ok r => exact ⟨r, rfl⟩
        | error e =>
          cases hmode : cfg.mode with
          | blocking =>
            exact ⟨(some (pre ++ [errorSubst e]), pre ++ [errorSubst e]),
              by simp⟩
          | logging =>
            exact ⟨(none, pre ++ [Message.ai lastAI]), by simp⟩
  · intro e pre lastAI hmsg hsub
    subst hmsg
    have htry : after_agent_try cfg env (pre ++ [Message.ai lastAI]) lastAI =
        Except.error e := by
      unfold after_agent_try
      rw [hsub]
    rw [after_agent_concat, htry]
    constructor
    · intro hb; simp [hb]
    · intro hl; simp [hl]

/-- C4 witness: a concrete blocking-mode run where submission raises; the hook
returns (does not raise) the substituted error message. -/
theorem claim_C4_witness :
    after_agent ⟨GuardrailMode.blocking, 30, 2, "blocked"⟩
      ⟨Except.error (PyError.otherError "boom"),
        Except.ok ⟨"x", ReviewTaskState.approved, none⟩⟩
      [Message.ai ⟨"hi", [], []⟩] =
      Except.ok (some [errorSubst (PyError.otherError "boom")],
        [errorSubst (PyError.otherError "boom")]) := by
  have h := (claim_C4 ⟨GuardrailMode.blocking, 30, 2, "blocked"⟩
    ⟨Except.error (PyError.otherError "boom"),
      Except.ok ⟨"x", ReviewTaskState.approved, none⟩⟩
    [Message.ai ⟨"hi", [], []⟩]).2 (PyError.otherError "boom") []
    ⟨"hi", [], []⟩ rfl rfl
  exact h.1 rfl

/-- C5: in blocking mode, an immediate Rejected or ChangeRequested verdict makes
`after_agent` return the original sequence with only the last message replaced:
the substitute's content is the configured blocked-message text, its annotations
are the blocked flag, the review task id and the requested change as reason, and
every earlier message is untouched. -/
theorem claim_C5 (cfg : GuardrailConfig) (env : GuardrailEnv)
    (pre : List Message) (lastAI : AIMessage) (r : VelatirResponse)
    (hmode : cfg.mode = GuardrailMode.blocking)
    (hsubmit : env.submit = Except.ok r)
    (hblk : r.is_denied = true ∨ r.is_change_requested = true) :
    after_agent cfg env (pre ++ [Message.ai lastAI]) =
      Except.ok (some (pre ++ [blockedSubst cfg r]),
        pre ++ [blockedSubst cfg r]) ∧
    blockedSubst cfg r =
      Message.ai ⟨cfg.blocked_message,
        [("velatir_blocked", KwVal.bool true),
         ("review_task_id", KwVal.str r.review_task_id),
         ("reason", KwVal.optStr r.requested_change)], []⟩ := by
  have hb : (r.is_denied || r.is_change_requested) = true := by
    rcases hblk with h | h <;> simp [h]
  have hap : r.is_approved = false := not_approved_of_blocking r hb
  have htry : after_agent_try cfg env (pre ++ [Message.ai lastAI]) lastAI =
      Except.ok (some (pre ++ [blockedSubst cfg r]),
        pre ++ [blockedSubst cfg r]) := by
    unfold after_agent_try
    rw [hsubmit]
    simp [hap, hb, hmode, List.dropLast_concat]
  rw [after_agent_concat, htry]
  exact ⟨rfl, rfl⟩

/-- C5 witness: a concrete blocking-mode run with an immediately rejected
verdict; the last message is replaced by the configured blocked text. -/
theorem claim_C5_witness :
    after_agent ⟨GuardrailMode.blocking, 30, 2, "not approved"⟩
      ⟨Except.ok ⟨"rt-5", ReviewTaskState.rejected, some "pii"⟩,
        Except.ok ⟨"rt-5", ReviewTaskState.rejected, some "pii"⟩⟩
      [Message.other "user turn", Message.ai ⟨"draft", [], []⟩] =
      Except.ok
        (some [Message.other "user turn",
          blockedSubst ⟨GuardrailMode.blocking, 30, 2, "not approved"⟩
            ⟨"rt-5", ReviewTaskState.rejected, some "pii"⟩],
         [Message.other "user turn",
          blockedSubst ⟨GuardrailMode.blocking, 30, 2, "not approved"⟩
            ⟨"rt-5", ReviewTaskState.rejected, some "pii"⟩]) :=
  (claim_C5 ⟨GuardrailMode.blocking, 30, 2, "not approved"⟩
    ⟨Except.ok ⟨"rt-5", ReviewTaskState.rejected, some "pii"⟩,
      Except.ok ⟨"rt-5", ReviewTaskState.rejected, some "pii"⟩⟩
    [Message.other "user turn"] ⟨"draft", [], []⟩
    ⟨"rt-5", ReviewTaskState.rejected, some "pii"⟩
    rfl rfl (Or.inl rfl)).1

/-- C6: in logging mode, an immediate Rejected or ChangeRequested verdict makes
`after_agent` return `None` while attaching the `velatir_warning` annotation
(review task id and reason) onto the last message itself, leaving its content
(and every other field) unchanged. -/
theorem claim_C6 (cfg : GuardrailConfig) (env : GuardrailEnv)
    (pre : List Message) (lastAI : AIMessage) (r : VelatirResponse)
    (hmode : cfg.mode = GuardrailMode.logging)
    (hsubmit : env.submit = Except.ok r)
    (hblk : r.is_denied = true ∨ r.is_change_requested = true) :
    after_agent cfg env (pre ++ [Message.ai lastAI]) =
      Except.ok (none,
        pre ++ [Message.ai { lastAI with
          additional_kwargs := dictSet lastAI.additional_kwargs
            "velatir_warning"
            (KwVal.warn r.review_task_id r.requested_change) }]) ∧
    (AIMessage.mk lastAI.content
      (dictSet lastAI.additional_kwargs "velatir_warning"
        (KwVal.warn r.review_task_id r.requested_change))
      lastAI.tool_calls).content = lastAI.content := by
  have hb : (r.is_denied || r.is_change_requested) = true := by
    rcases hblk with h | h <;> simp [h]
  have hap : r.is_approved = false := not_approved_of_blocking r hb
  have htry : after_agent_try cfg env (pre ++ [Message.ai lastAI]) lastAI =
      Except.ok (none,
        pre ++ [Message.ai { lastAI with
          additional_kwargs := dictSet lastAI.additional_kwargs
            "velatir_warning"
            (KwVal.warn r.review_task_id r.requested_change) }]) := by
    unfold after_agent_try
    rw [hsubmit]
    simp [hap, hb, hmode, List.dropLast_concat]
  rw [after_agent_concat, htry]
  exact ⟨rfl, rfl⟩

/-- C6 witness: a concrete logging-mode run with an immediately rejected
verdict; the state is returned unchanged (`None`) and the warning annotation is
attached to the original last message. -/
theorem claim_C6_witness :
    after_agent ⟨GuardrailMode.logging, 30, 2, "not approved"⟩
      ⟨Except.ok ⟨"rt-6", ReviewTaskState.changeRequested, some "tone"⟩,
        Except.ok ⟨"rt-6", ReviewTaskState.changeRequested, some "tone"⟩⟩
      [Message.ai ⟨"draft", [("seed", KwVal.str "s")], []⟩] =
      Except.ok (none,
        [Message.ai ⟨"draft",
          [("seed", KwVal.str "s"),
           ("velatir_warning", KwVal.warn "rt-6" (some "tone"))], []⟩]) := by
  have h := (claim_C6 ⟨GuardrailMode.logging, 30, 2, "not approved"⟩
    ⟨Except.ok ⟨"rt-6", ReviewTaskState.changeRequested, some "tone"⟩,
      Except.ok ⟨"rt-6", ReviewTaskState.changeRequested, some "tone"⟩⟩
    [] ⟨"draft", [("seed", KwVal.str "s")], []⟩
    ⟨"rt-6", ReviewTaskState.changeRequested, some "tone"⟩
    rfl rfl (Or.inr rfl)).1
  exact h

/-- C10: in logging mode, when the immediate verdict is non-terminal and the
subsequent wait resolves to a blocking verdict, `after_agent` returns `None`
and attaches no warning annotation: the message list is left exactly as it
was.  The logging-mode warning exists only on the immediate-blocking path. -/
theorem claim_C10 (cfg : GuardrailConfig) (env : GuardrailEnv)
    (pre : List Message) (lastAI : AIMessage) (r f : VelatirResponse)
    (hmode : cfg.mode = GuardrailMode.logging)
    (hsubmit : env.submit = Except.ok r)
    (hra : r.is_approved = false) (hrd : r.is_denied = false)
    (hrc : r.is_change_requested = false)
    (hwait : env.wait = Except.ok f)
    (hblk : f.is_denied = true ∨ f.is_change_requested = true) :
    after_agent cfg env (pre ++ [Message.ai lastAI]) =
      Except.ok (none, pre ++ [Message.ai lastAI]) := by
  have hfb : (f.is_denied || f.is_change_requested) = true := by
    rcases hblk with h | h <;> simp [h]
  have hfa : f.is_approved = false := not_approved_of_blocking f hfb
  have htry : after_agent_try cfg env (pre ++ [Message.ai lastAI]) lastAI =
      Except.ok (none, pre ++ [Message.ai lastAI]) := by
    unfold after_agent_try
    rw [hsubmit]
    simp [hra, hrd, hrc, hwait, hfa, hfb, hmode]
  rw [after_agent_concat, htry]

/-- C10 witness: a concrete logging-mode run where the immediate verdict is
Pending and the wait resolves to Rejected; the state is entirely unchanged. -/
theorem claim_C10_witness :
    after_agent ⟨GuardrailMode.logging, 30, 2, "not approved"⟩
      ⟨Except.ok ⟨"rt-10", ReviewTaskState.pending, none⟩,
        Except.ok ⟨"rt-10", ReviewTaskState.rejected, some "nope"⟩⟩
      [Message.ai ⟨"draft", [], []⟩] =
      Except.ok (none, [Message.ai ⟨"draft", [], []⟩]) :=
  claim_C10 ⟨GuardrailMode.logging, 30, 2, "not approved"⟩
    ⟨Except.ok ⟨"rt-10", ReviewTaskState.pending, none⟩,
      Except.ok ⟨"rt-10", ReviewTaskState.rejected, some "nope"⟩⟩
    [] ⟨"draft", [], []⟩
    ⟨"rt-10", ReviewTaskState.pending, none⟩
    ⟨"rt-10", ReviewTaskState.rejected, some "nope"⟩
    rfl rfl rfl rfl rfl rfl (Or.inl rfl)

lemma submits_append (a b : List GateEvent) :
    submits (a ++ b) = submits a ++ submits b := by
  unfold submits
  exact List.filterMap_append a b _

lemma submits_gateStep (cfg : HITLConfig) (ce : CallEnv) (name : String) :
    submits (gateStep cfg ce name).1 = [name] := by
  unfold gateStep
  cases hs : ce.submit with
  | error e => simp [submits]
  | ok r =>
    by_cases hra : r.is_approved = true
    · simp [hra, submits]
    · cases hw : ce.wait with
      | error e => simp [hra, hw, submits]
      | ok f =>
        by_cases hfa : f.is_approved = true
        · simp [hra, hw, hfa, submits]
        · by_cases hfb : (f.is_denied || f.is_change_requested) = true
          · simp [hra, hw, hfa, hfb, submits]
          · simp [hra, hw, hfa, hfb, submits]

lemma gateStep_of_stepOk (cfg : HITLConfig) (ce : CallEnv) (name : String)
    (h : StepOk ce) : (gateStep cfg ce name).2 = Except.ok () := by
  obtain ⟨r, hs, hcase⟩ := h
  unfold gateStep
  rcases hcase with hap | ⟨f, hw, hf⟩
  · simp [hs, hap]
  · by_cases hra : r.is_approved = true
    · simp [hs, hra]
    · by_cases hfa : f.is_approved = true
      · simp [hs, hra, hw, hfa]
      · simp [hs, hra, hw, hfa, hf]

lemma gateStep_denied (cfg : HITLConfig) (ce : CallEnv) (name : String)
    (r f : VelatirResponse)
    (hs : ce.submit = Except.ok r) (hra : r.is_approved = false)
    (hw : ce.wait = Except.ok f)
    (hf : (f.is_denied || f.is_change_requested) = true) :
    gateStep cfg ce name =
      ([GateEvent.submit name, GateEvent.wait name],
       Except.error (PyError.approvalDeniedError
         ("Tool execution denied for " ++ name ++ ": " ++
           pyOrStr f.requested_change "No reason provided")
         (some f.review_task_id) f.requested_change)) := by
  have hfa : f.is_approved = false := not_approved_of_blocking f hf
  unfold gateStep
  simp [hs, hra, hw, hfa, hf]

lemma gateStep_timeout (cfg : HITLConfig) (ce : CallEnv) (name : String)
    (r : VelatirResponse) (m : String) (rtid : Option String)
    (secs : Option ℚ)
    (hs : ce.submit = Except.ok r) (hra : r.is_approved = false)
    (hw : ce.wait = Except.error (PyError.timeoutError m rtid secs)) :
    gateStep cfg ce name =
      ([GateEvent.submit name, GateEvent.wait name],
       Except.error (PyError.timeoutError
         ("Timeout waiting for approval of tool " ++ name ++ " after " ++
           floatStr cfg.timeout ++ "s") rtid (some cfg.timeout))) := by
  unfold gateStep
  simp [hs, hra, hw]

lemma gateLoop_cons_ok (cfg : HITLConfig) (env : ℕ → CallEnv)
    (tc : ToolCall) (rest : List ToolCall) (i : ℕ)
    (h : (gateStep cfg (env i) (pyName tc)).2 = Except.ok ()) :
    gateLoop cfg env (tc :: rest) i =
      ((gateStep cfg (env i) (pyName tc)).1 ++ (gateLoop cfg env rest (i + 1)).1,
       (gateLoop cfg env rest (i + 1)).2) := by
  simp only [gateLoop]
  rw [h]

lemma gateLoop_cons_error (cfg : HITLConfig) (env : ℕ → CallEnv)
    (tc : ToolCall) (rest : List ToolCall) (i : ℕ) (e : PyError)
    (h : (gateStep cfg (env i) (pyName tc)).2 = Except.error e) :
    gateLoop cfg env (tc :: rest) i =
      ((gateStep cfg (env i) (pyName tc)).1, Except.error e) := by
  simp only [gateLoop]
  rw [h]

lemma gateLoop_all_ok (cfg : HITLConfig) (env : ℕ → CallEnv) :
    ∀ (calls : List ToolCall) (start : ℕ),
      (∀ j, j < calls.length → StepOk (env (start + j))) →
      (gateLoop cfg env calls start).2 = Except.ok () ∧
      submits (gateLoop cfg env calls start).1 = calls.map pyName := by
  intro calls
  induction calls with
  | nil =>
    intro start h
    constructor <;> simp [gateLoop, submits]
  | cons tc rest ih =>
    intro start h
    have h0 : StepOk (env start) := by
      have := h 0 (by simp)
      simpa using this
    have hok := gateStep_of_stepOk cfg (env start) (pyName tc) h0
    have hrest := ih (start + 1) (fun j hj => by
      have hx := h (j + 1) (by simpa using Nat.succ_lt_succ hj)
      rwa [show start + (j + 1) = start + 1 + j by omega] at hx)
    rw [gateLoop_cons_ok cfg env tc rest start hok]
    refine ⟨hrest.1, ?_⟩
    rw [submits_append, submits_gateStep, hrest.2]
    simp

lemma gateLoop_skip (cfg : HITLConfig) (env : ℕ → CallEnv) :
    ∀ (i : ℕ) (calls : List ToolCall) (start : ℕ), i ≤ calls.length →
      (∀ j, j < i → StepOk (env (start + j))) →
      ∃ tr0,
        (gateLoop cfg env calls start).1 =
          tr0 ++ (gateLoop cfg env (calls.drop i) (start + i)).1 ∧
        submits tr0 = (calls.map pyName).take i ∧
        (gateLoop cfg env calls start).2 =
          (gateLoop cfg env (calls.drop i) (start + i)).2 := by
  intro i
  induction i with
  | zero =>
    intro calls start _ _
    exact ⟨[], by simp, by simp [submits], by simp⟩
  | succ k ih =>
    intro calls start hlen h
    cases calls with
    | nil => simp at hlen
    | cons tc rest =>
      have h0 : StepOk (env start) := by
        simpa using h 0 (Nat.succ_pos k)
      have hok := gateStep_of_stepOk cfg (env start) (pyName tc) h0
      obtain ⟨tr0, htr, hsub, hres⟩ := ih rest (start + 1)
        (by simpa using Nat.succ_le_succ_iff.mp (by simpa using hlen))
        (fun j hj => by
          have hx := h (j + 1) (Nat.succ_lt_succ hj)
          rwa [show start + (j + 1) = start + 1 + j by omega] at hx)
      refine ⟨(gateStep cfg (env start) (pyName tc)).1 ++ tr0, ?_, ?_, ?_⟩
      · rw [gateLoop_cons_ok cfg env tc rest start hok, htr,
          List.drop_succ_cons, show start + (k + 1) = start + 1 + k by omega]
        simp [List.append_assoc]
      · rw [submits_append, submits_gateStep, hsub]
        simp [List.take_succ_cons]
      · rw [gateLoop_cons_ok cfg env tc rest start hok, hres,
          List.drop_succ_cons, show start + (k + 1) = start + 1 + k by omega]

lemma gateLoop_prefix (cfg : HITLConfig) (env : ℕ → CallEnv) :
    ∀ (calls : List ToolCall) (start : ℕ),
      ∃ k, k ≤ calls.length ∧
        submits (gateLoop cfg env calls start).1 =
          (calls.map pyName).take k := by
  intro calls
  induction calls with
  | nil =>
    intro start
    exact ⟨0, by simp, by simp [gateLoop, submits]⟩
  | cons tc rest ih =>
    intro start
    cases hstep : (gateStep cfg (env start) (pyName tc)).2 with
    | error e =>
      refine ⟨1, by simp, ?_⟩
      rw [gateLoop_cons_error cfg env tc rest start e hstep]
      simp [submits_gateStep]
    | ok u =>
      cases u
      obtain ⟨k, hk, hsub⟩ := ih (start + 1)
      refine ⟨k + 1, by simpa using Nat.succ_le_succ hk, ?_⟩
      rw [gateLoop_cons_ok cfg env tc rest start hstep]
      rw [submits_append, submits_gateStep, hsub]
      simp [List.take_succ_cons]

lemma gateLoop_abort (cfg : HITLConfig) (env : ℕ → CallEnv)
    (calls : List ToolCall) (i : ℕ) (hi : i < calls.length)
    (hpre : ∀ j, j < i → StepOk (env j)) (e : PyError)
    (hstep : (gateStep cfg (env i) (pyName calls[i])).2 = Except.error e) :
    ∃ tr0,
      (gateLoop cfg env calls 0).1 =
        tr0 ++ (gateStep cfg (env i) (pyName calls[i])).1 ∧
      submits (gateLoop cfg env calls 0).1 = (calls.map pyName).take (i + 1) ∧
      (gateLoop cfg env calls 0).2 = Except.error e := by
  obtain ⟨tr0, htr, hsub0, hres⟩ := gateLoop_skip cfg env i calls 0
    (le_of_lt hi) (fun j hj => by simpa using hpre j hj)
  have hdrop : calls.drop i = calls[i] :: calls.drop (i + 1) :=
    List.drop_eq_getElem_cons hi
  have hloop : gateLoop cfg env (calls.drop i) (0 + i) =
      ((gateStep cfg (env i) (pyName calls[i])).1, Except.error e) := by
    rw [show (0 + i) = i by omega, hdrop]
    exact gateLoop_cons_error cfg env calls[i] (calls.drop (i + 1)) i e hstep
  refine ⟨tr0, ?_, ?_, ?_⟩
  · rw [htr, hloop]
  · rw [htr, hloop, submits_append, hsub0, submits_gateStep]
    rw [List.take_succ, List.getElem?_map, List.getElem?_eq_getElem hi]
    simp
  · rw [hres, hloop]

lemma filterCalls_nil (cfg : HITLConfig) : filterCalls cfg [] = [] := by
  unfold filterCalls
  cases cfg.require_approval_for <;> simp

lemma after_model_run (cfg : HITLConfig) (env : ℕ → CallEnv)
    (pre : List Message) (m : AIMessage)
    (hne : filterCalls cfg m.tool_calls ≠ []) :
    after_model cfg env (pre ++ [Message.ai m]) =
      ((gateLoop cfg env (filterCalls cfg m.tool_calls) 0).1,
       match (gateLoop cfg env (filterCalls cfg m.tool_calls) 0).2 with
       | .ok _ => Except.ok none
       | .error e => Except.error e) := by
  have htc : m.tool_calls ≠ [] := by
    intro hnil
    apply hne
    rw [hnil, filterCalls_nil]
  unfold after_model
  rw [List.getLast?_concat]
  simp [List.isEmpty_iff, htc, hne]

lemma after_model_never_some (cfg : HITLConfig) (env : ℕ → CallEnv)
    (messages : List Message) :
    (after_model cfg env messages).2 = Except.ok none ∨
      ∃ e, (after_model cfg env messages).2 = Except.error e := by
  induction messages using List.reverseRecOn with
  | nil => left; rfl
  | append_singleton pre last ih =>
    cases last with
    | other s =>
      left
      unfold after_model
      rw [List.getLast?_concat]
    | ai m =>
      by_cases hne : filterCalls cfg m.tool_calls = []
      · left
        by_cases htc : m.tool_calls = []
        · unfold after_model
          rw [List.getLast?_concat]
          simp [htc]
        · unfold after_model
          rw [List.getLast?_concat]
          simp [List.isEmpty_iff, htc, hne]
      · rw [after_model_run cfg env pre m hne]
        cases hg : (gateLoop cfg env (filterCalls cfg m.tool_calls) 0).2 with
        | ok u => left; simp [hg]
        | error e => right; exact ⟨e, by simp [hg]⟩

lemma after_model_filter_nil (cfg : HITLConfig) (env : ℕ → CallEnv)
    (pre : List Message) (m : AIMessage)
    (hne : filterCalls cfg m.tool_calls = []) :
    after_model cfg env (pre ++ [Message.ai m]) = ([], Except.ok none) := by
  by_cases htc : m.tool_calls = []
  · unfold after_model
    rw [List.getLast?_concat]
    simp [htc]
  · unfold after_model
    rw [List.getLast?_concat]
    simp [List.isEmpty_iff, htc, hne]

/-- C9: the tool-call gate never returns a modified state: every invocation of
`after_model` either raises or returns `None`.  In particular the hook is a
strict no-op (`None`, empty trace) on an empty message list, on a last message
without tool calls (any non-AI message), and when the allow-list filters out
every call; and when every submitted call clears review (no blocking verdict,
no timeout), it returns `None`. -/
theorem claim_C9 (cfg : HITLConfig) (env : ℕ → CallEnv)
    (messages : List Message) :
    (∀ st, (after_model cfg env messages).2 ≠ Except.ok (some st)) ∧
    (messages = [] → after_model cfg env messages = ([], Except.ok none)) ∧
    (∀ pre s, messages = pre ++ [Message.other s] →
      after_model cfg env messages = ([], Except.ok none)) ∧
    (∀ pre m, messages = pre ++ [Message.ai m] →
      filterCalls cfg m.tool_calls = [] →
      after_model cfg env messages = ([], Except.ok none)) ∧
    (∀ pre m, messages = pre ++ [Message.ai m] →
      (∀ j, j < (filterCalls cfg m.tool_calls).length → StepOk (env j)) →
      (after_model cfg env messages).2 = Except.ok none) := by
  refine ⟨?_, ?_, ?_, ?_, ?_⟩
  · intro st
    rcases after_model_never_some cfg env messages with h | ⟨e, h⟩ <;>
      simp [h]
  · intro hnil
    subst hnil
    rfl
  · intro pre s hmsg
    subst hmsg
    unfold after_model
    rw [List.getLast?_concat]
  · intro pre m hmsg hne
    subst hmsg
    exact after_model_filter_nil cfg env pre m hne
  · intro pre m hmsg hok
    subst hmsg
    by_cases hne : filterCalls cfg m.tool_calls = []
    · rw [after_model_filter_nil cfg env pre m hne]
    · rw [after_model_run cfg env pre m hne]
      have := (gateLoop_all_ok cfg env (filterCalls cfg m.tool_calls) 0
        (fun j hj => by simpa using hok j hj)).1
      simp [this]

/-- C9 witness: with allow-list `["delete_file"]` and a single proposed call
`read_file`, the gate is a no-op returning `None`. -/
theorem claim_C9_witness :
    after_model ⟨5, 600, some ["delete_file"]⟩
      (fun _ => ⟨Except.ok ⟨"rt", ReviewTaskState.approved, none⟩,
        Except.ok ⟨"rt", ReviewTaskState.approved, none⟩⟩)
      [Message.ai ⟨"", [], [⟨some "read_file", [], some "1"⟩]⟩] =
      ([], Except.ok none) :=
  (claim_C9 ⟨5, 600, some ["delete_file"]⟩
    (fun _ => ⟨Except.ok ⟨"rt", ReviewTaskState.approved, none⟩,
      Except.ok ⟨"rt", ReviewTaskState.approved, none⟩⟩)
    [Message.ai ⟨"", [], [⟨some "read_file", [], some "1"⟩]⟩]).2.2.2.1
    [] ⟨"", [], [⟨some "read_file", [], some "1"⟩]⟩ rfl rfl

/-- C3: the gate submits the approval-required calls of a batch strictly in the
order they appear (the submitted names are always a prefix, in order, of the
filtered batch), and the first call whose final verdict is blocking or whose
wait times out aborts the batch: the submissions stop at that call, so no call
after it is ever submitted, and the hook raises. -/
theorem claim_C3 (cfg : HITLConfig) (env : ℕ → CallEnv) (pre : List Message)
    (m : AIMessage) (calls : List ToolCall)
    (hcalls : filterCalls cfg m.tool_calls = calls) :
    (∃ k, k ≤ calls.length ∧
      submits (after_model cfg env (pre ++ [Message.ai m])).1 =
        (calls.map pyName).take k) ∧
    (∀ i, i < calls.length → (∀ j, j < i → StepOk (env j)) →
      Aborts (env i) →
      submits (after_model cfg env (pre ++ [Message.ai m])).1 =
        (calls.map pyName).take (i + 1) ∧
      ∃ e, (after_model cfg env (pre ++ [Message.ai m])).2 =
        Except.error e) := by
  subst hcalls
  constructor
  · by_cases hne : filterCalls cfg m.tool_calls = []
    · refine ⟨0, by simp, ?_⟩
      rw [after_model_filter_nil cfg env pre m hne]
      simp [submits]
    · rw [after_model_run cfg env pre m hne]
      obtain ⟨k, hk, hsub⟩ :=
        gateLoop_prefix cfg env (filterCalls cfg m.tool_calls) 0
      exact ⟨k, hk, by simpa using hsub⟩
  · intro i hi hpre hab
    have hne : filterCalls cfg m.tool_calls ≠ [] := by
      intro hnil
      rw [hnil] at hi
      simp at hi
    obtain ⟨r, hs, hra, hrest⟩ := hab
    have hstep : ∃ e,
        (gateStep cfg (env i)
          (pyName (filterCalls cfg m.tool_calls)[i])).2 = Except.error e := by
      rcases hrest with ⟨f, hw, hf⟩ | ⟨wm, wrt, ws, hw⟩
      · exact ⟨_, by rw [gateStep_denied cfg (env i)
          (pyName (filterCalls cfg m.tool_calls)[i]) r f hs hra hw hf]⟩
      · exact ⟨_, by rw [gateStep_timeout cfg (env i)
          (pyName (filterCalls cfg m.tool_calls)[i]) r wm wrt ws hs hra hw]⟩
    obtain ⟨e, hstep⟩ := hstep
    obtain ⟨tr0, htr, hsub, hres⟩ := gateLoop_abort cfg env
      (filterCalls cfg m.tool_calls) i hi hpre e hstep
    rw [after_model_run cfg env pre m hne]
    refine ⟨by simpa using hsub, ⟨e, by simp [hres]⟩⟩

/-- C3 witness: two approval-required calls where the first is denied on its
final verdict; only the first is submitted (the second never is) and the hook
raises. -/
theorem claim_C3_witness :
    submits (after_model ⟨5, 600, none⟩
      (fun _ => ⟨Except.ok ⟨"rt-a", ReviewTaskState.pending, none⟩,
        Except.ok ⟨"rt-a", ReviewTaskState.rejected, some "no"⟩⟩)
      [Message.ai ⟨"", [],
        [⟨some "send_email", [], some "1"⟩,
         ⟨some "delete_user", [], some "2"⟩]⟩]).1 =
      ([(⟨some "send_email", [], some "1"⟩ : ToolCall),
        ⟨some "delete_user", [], some "2"⟩].map pyName).take 1 ∧
    ∃ e, (after_model ⟨5, 600, none⟩
      (fun _ => ⟨Except.ok ⟨"rt-a", ReviewTaskState.pending, none⟩,
        Except.ok ⟨"rt-a", ReviewTaskState.rejected, some "no"⟩⟩)
      [Message.ai ⟨"", [],
        [⟨some "send_email", [], some "1"⟩,
         ⟨some "delete_user", [], some "2"⟩]⟩]).2 = Except.error e :=
  (claim_C3 ⟨5, 600, none⟩
    (fun _ => ⟨Except.ok ⟨"rt-a", ReviewTaskState.pending, none⟩,
      Except.ok ⟨"rt-a", ReviewTaskState.rejected, some "no"⟩⟩)
    [] ⟨"", [],
      [⟨some "send_email", [], some "1"⟩,
       ⟨some "delete_user", [], some "2"⟩]⟩
    [⟨some "send_email", [], some "1"⟩, ⟨some "delete_user", [], some "2"⟩]
    rfl).2 0 (by simp) (fun j hj => absurd hj (Nat.not_lt_zero j))
    ⟨⟨"rt-a", ReviewTaskState.pending, none⟩, rfl, rfl,
      Or.inl ⟨⟨"rt-a", ReviewTaskState.rejected, some "no"⟩, rfl, rfl⟩⟩

/-- C2 counterexample: a single tool call whose submission returns an
immediately blocking verdict (Rejected).  The claim says the gate fails
"without making any further status polls for that call", but the run's trace
contains a wait event for that call: `after_model` short-circuits only on
`is_approved`, so an immediately denied call still goes through
`wait_for_approval_sync` (at least one further status poll) before the batch
fails with `VelatirApprovalDeniedError`. -/
theorem claim_C2_counterexample :
    after_model ⟨5, 600, none⟩
      (fun _ => ⟨Except.ok ⟨"rt-1", ReviewTaskState.rejected, some "no"⟩,
        Except.ok ⟨"rt-1", ReviewTaskState.rejected, some "no"⟩⟩)
      [Message.ai ⟨"", [], [⟨some "send_email", [], some "1"⟩]⟩] =
      ([GateEvent.submit "send_email", GateEvent.wait "send_email"],
       Except.error (PyError.approvalDeniedError
         "Tool execution denied for send_email: no"
         (some "rt-1") (some "no"))) := rfl

/-- C2 corrected: when the i-th filtered call's submission returns an
immediately blocking verdict, the gate still performs the wait on that task (a
wait event — at least one further status poll — appears in the trace); once the
wait resolves to the blocking final verdict, the whole batch fails with
`VelatirApprovalDeniedError` carrying the review task id, the requested change
and the tool name, and no remaining call is submitted. -/
theorem claim_C2_corrected (cfg : HITLConfig) (env : ℕ → CallEnv)
    (pre : List Message) (m : AIMessage) (calls : List ToolCall)
    (hcalls : filterCalls cfg m.tool_calls = calls)
    (i : ℕ) (hi : i < calls.length)
    (hpre : ∀ j, j < i → StepOk (env j))
    (r f : VelatirResponse)
    (hs : (env i).submit = Except.ok r)
    (himm : (r.is_denied || r.is_change_requested) = true)
    (hw : (env i).wait = Except.ok f)
    (hf : (f.is_denied || f.is_change_requested) = true) :
    (after_model cfg env (pre ++ [Message.ai m])).2 =
      Except.error (PyError.approvalDeniedError
        ("Tool execution denied for " ++ pyName calls[i] ++ ": " ++
          pyOrStr f.requested_change "No reason provided")
        (some f.review_task_id) f.requested_change) ∧
    submits (after_model cfg env (pre ++ [Message.ai m])).1 =
      (calls.map pyName).take (i + 1) ∧
    GateEvent.wait (pyName calls[i]) ∈
      (after_model cfg env (pre ++ [Message.ai m])).1 := by
  subst hcalls
  have hra : r.is_approved = false := not_approved_of_blocking r himm
  have hne : filterCalls cfg m.tool_calls ≠ [] := by
    intro hnil
    rw [hnil] at hi
    simp at hi
  have hstepEq := gateStep_denied cfg (env i)
    (pyName (filterCalls cfg m.tool_calls)[i]) r f hs hra hw hf
  have hstep : (gateStep cfg (env i)
      (pyName (filterCalls cfg m.tool_calls)[i])).2 =
      Except.error (PyError.approvalDeniedError
        ("Tool execution denied for " ++
          pyName (filterCalls cfg m.tool_calls)[i] ++ ": " ++
          pyOrStr f.requested_change "No reason provided")
        (some f.review_task_id) f.requested_change) := by
    rw [hstepEq]
  obtain ⟨tr0, htr, hsub, hres⟩ := gateLoop_abort cfg env
    (filterCalls cfg m.tool_calls) i hi hpre _ hstep
  rw [after_model_run cfg env pre m hne]
  have h1 := htr
  rw [hstepEq] at h1
  refine ⟨by simp [hres], by simpa using hsub, by simp [h1]⟩

/-- C2 corrected witness: a concrete immediately denied call; the batch fails
with the denied error carrying id, change and tool name, only that call is
submitted, and a wait event for it is in the trace. -/
theorem claim_C2_corrected_witness :
    (after_model ⟨5, 600, none⟩
      (fun _ => ⟨Except.ok ⟨"rt-2", ReviewTaskState.changeRequested, some "redact"⟩,
        Except.ok ⟨"rt-2", ReviewTaskState.changeRequested, some "redact"⟩⟩)
      [Message.ai ⟨"", [], [⟨some "post_tweet", [], some "9"⟩]⟩]).2 =
      Except.error (PyError.approvalDeniedError
        ("Tool execution denied for " ++
          pyName (⟨some "post_tweet", [], some "9"⟩ : ToolCall) ++ ": " ++
          pyOrStr (some "redact") "No reason provided")
        (some "rt-2") (some "redact")) ∧
    GateEvent.wait (pyName (⟨some "post_tweet", [], some "9"⟩ : ToolCall)) ∈
      (after_model ⟨5, 600, none⟩
        (fun _ => ⟨Except.ok ⟨"rt-2", ReviewTaskState.changeRequested, some "redact"⟩,
          Except.ok ⟨"rt-2", ReviewTaskState.changeRequested, some "redact"⟩⟩)
        [Message.ai ⟨"", [], [⟨some "post_tweet", [], some "9"⟩]⟩]).1 := by
  have h := claim_C2_corrected ⟨5, 600, none⟩
    (fun _ => ⟨Except.ok ⟨"rt-2", ReviewTaskState.changeRequested, some "redact"⟩,
      Except.ok ⟨"rt-2", ReviewTaskState.changeRequested, some "redact"⟩⟩)
    [] ⟨"", [], [⟨some "post_tweet", [], some "9"⟩]⟩
    [⟨some "post_tweet", [], some "9"⟩] rfl 0 (by simp)
    (fun j hj => absurd hj (Nat.not_lt_zero j))
    ⟨"rt-2", ReviewTaskState.changeRequested, some "redact"⟩
    ⟨"rt-2", ReviewTaskState.changeRequested, some "redact"⟩
    rfl rfl rfl rfl
  exact ⟨h.1, h.2.2⟩

/-- C7 counterexample: in the response-guardrail path, when the wait raises the
approval timeout no error is surfaced to the caller at all: `after_agent`
catches the `VelatirTimeoutError` and returns a substituted message (an `ok`
result).  Nothing annotated with the operation name "agent_response" is raised
— contrary to the claim that a timeout always surfaces an
`ApprovalTimeoutError` annotated with the operation name. -/
theorem claim_C7_counterexample :
    after_agent ⟨GuardrailMode.blocking, 30, 2, "not approved"⟩
      ⟨Except.ok ⟨"rt-7", ReviewTaskState.pending, none⟩,
        Except.error (PyError.timeoutError
          "Approval timeout after 30.1s waiting for review task rt-7"
          (some "rt-7") (some 30))⟩
      [Message.ai ⟨"draft", [], []⟩] =
      Except.ok (some [timeoutSubst ⟨"rt-7", ReviewTaskState.pending, none⟩],
        [timeoutSubst ⟨"rt-7", ReviewTaskState.pending, none⟩]) ∧
    (after_agent ⟨GuardrailMode.blocking, 30, 2, "not approved"⟩
      ⟨Except.ok ⟨"rt-7", ReviewTaskState.pending, none⟩,
        Except.error (PyError.timeoutError
          "Approval timeout after 30.1s waiting for review task rt-7"
          (some "rt-7") (some 30))⟩
      [Message.ai ⟨"draft", [], []⟩]).isOk = true :=
  ⟨rfl, rfl⟩

/-- C7 corrected: an approval timeout surfaces as the domain
`VelatirTimeoutError` only from the tool-call gate, where `after_model`
re-raises it annotated with the tool name and the configured timeout; the
client layer translates the raw SDK timeout into the domain error carrying the
review task id; and in the response-guardrail path a timeout is never surfaced
as an error — blocking mode substitutes the timed-out message and logging mode
leaves the state unchanged. -/
theorem claim_C7_corrected (cfg : HITLConfig) (env : ℕ → CallEnv)
    (pre : List Message) (m : AIMessage) (calls : List ToolCall)
    (hcalls : filterCalls cfg m.tool_calls = calls)
    (i : ℕ) (hi : i < calls.length)
    (hpre : ∀ j, j < i → StepOk (env j))
    (r : VelatirResponse) (wm : String) (wrt : Option String) (ws : Option ℚ)
    (hs : (env i).submit = Except.ok r) (hra : r.is_approved = false)
    (hw : (env i).wait = Except.error (PyError.timeoutError wm wrt ws)) :
    (after_model cfg env (pre ++ [Message.ai m])).2 =
      Except.error (PyError.timeoutError
        ("Timeout waiting for approval of tool " ++ pyName calls[i] ++
          " after " ++ floatStr cfg.timeout ++ "s")
        wrt (some cfg.timeout)) ∧
    (∀ rtid el, wait_for_approval_sync_result rtid el
        SdkWaitResult.sdkTimeout =
      Except.error (PyError.timeoutError
        ("Approval timeout after " ++ floatStr el ++
          "s waiting for review task " ++ rtid)
        (some rtid) (some el))) ∧
    (∀ (gcfg : GuardrailConfig) (genv : GuardrailEnv) (gpre : List Message)
        (lastAI : AIMessage) (r2 : VelatirResponse) (tm : String)
        (trt : Option String) (ts : Option ℚ),
      genv.submit = Except.ok r2 → r2.is_approved = false →
      r2.is_denied = false → r2.is_change_requested = false →
      genv.wait = Except.error (PyError.timeoutError tm trt ts) →
      (gcfg.mode = GuardrailMode.blocking →
        after_agent gcfg genv (gpre ++ [Message.ai lastAI]) =
          Except.ok (some (gpre ++ [timeoutSubst r2]),
            gpre ++ [timeoutSubst r2])) ∧
      (gcfg.mode = GuardrailMode.logging →
        after_agent gcfg genv (gpre ++ [Message.ai lastAI]) =
          Except.ok (none, gpre ++ [Message.ai lastAI]))) := by
  subst hcalls
  refine ⟨?_, fun rtid el => rfl, ?_⟩
  · have hne : filterCalls cfg m.tool_calls ≠ [] := by
      intro hnil
      rw [hnil] at hi
      simp at hi
    have hstepEq := gateStep_timeout cfg (env i)
      (pyName (filterCalls cfg m.tool_calls)[i]) r wm wrt ws hs hra hw
    have hstep : (gateStep cfg (env i)
        (pyName (filterCalls cfg m.tool_calls)[i])).2 =
        Except.error (PyError.timeoutError
          ("Timeout waiting for approval of tool " ++
            pyName (filterCalls cfg m.tool_calls)[i] ++ " after " ++
            floatStr cfg.timeout ++ "s")
          wrt (some cfg.timeout)) := by
      rw [hstepEq]
    obtain ⟨tr0, htr, hsub, hres⟩ := gateLoop_abort cfg env
      (filterCalls cfg m.tool_calls) i hi hpre _ hstep
    rw [after_model_run cfg env pre m hne]
    simp [hres]
  · intro gcfg genv gpre lastAI r2 tm trt ts hsub2 hra2 hrd2 hrc2 hw2
    have htry : after_agent_try gcfg genv (gpre ++ [Message.ai lastAI])
        lastAI =
        if gcfg.mode = GuardrailMode.blocking then
          Except.ok (some (gpre ++ [timeoutSubst r2]),
            gpre ++ [timeoutSubst r2])
        else Except.ok (none, gpre ++ [Message.ai lastAI]) := by
      unfold after_agent_try
      rw [hsub2]
      simp [hra2, hrd2, hrc2, hw2, List.dropLast_concat]
    constructor
    · intro hb
      rw [after_agent_concat, htry]
      simp [hb]
    · intro hl
      rw [after_agent_concat, htry]
      simp [hl]

/-- C7 corrected witness: a concrete gate run where the wait times out; the
raised error is the domain timeout error whose message names the tool. -/
theorem claim_C7_corrected_witness :
    (after_model ⟨5, 600, none⟩
      (fun _ => ⟨Except.ok ⟨"rt-3", ReviewTaskState.pending, none⟩,
        Except.error (PyError.timeoutError "raw" (some "rt-3") (some 600))⟩)
      [Message.ai ⟨"", [], [⟨some "wire_funds", [], some "4"⟩]⟩]).2 =
      Except.error (PyError.timeoutError
        ("Timeout waiting for approval of tool " ++
          pyName (⟨some "wire_funds", [], some "4"⟩ : ToolCall) ++
          " after " ++ floatStr 600 ++ "s")
        (some "rt-3") (some 600)) := by
  have h := claim_C7_corrected ⟨5, 600, none⟩
    (fun _ => ⟨Except.ok ⟨"rt-3", ReviewTaskState.pending, none⟩,
      Except.error (PyError.timeoutError "raw" (some "rt-3") (some 600))⟩)
    [] ⟨"", [], [⟨some "wire_funds", [], some "4"⟩]⟩
    [⟨some "wire_funds", [], some "4"⟩] rfl 0 (by simp)
    (fun j hj => absurd hj (Nat.not_lt_zero j))
    ⟨"rt-3", ReviewTaskState.pending, none⟩ "raw" (some "rt-3") (some 600)
    rfl rfl rfl
  exact h.1
